import Mathlib

/-!
Verification of the Poker Coach core pipeline: a shallow embedding of the
card model (`src/models/card.py`), hand context (`src/models/game_state.py`),
odds calculator (`src/engine/odds_calculator.py`), preflop range table
(`src/strategy/ranges.py`), Monte Carlo equity simulator
(`src/engine/monte_carlo.py`) and decision engine
(`src/engine/decision_engine.py`).

Python floats are modelled as exact rationals (`ℚ`); all the constants in the
source (1.5, 2.7, 0.05, 1.15, ...) are decimal literals, so the arithmetic is
the same.  Python `ValueError`-raising functions are modelled as
`Except String` values.  Python `set`s of combo strings are modelled as lists,
which the code only queries through membership.  The `treys` hand-rank oracle
and the random shuffle are abstracted as function parameters, exactly matching
the oracle contract stated in the code (ranks are integers, lower is better;
each trial re-shuffles the working deck).
-/

deriving instance DecidableEq for Except

namespace PokerCoach

/-! ### Python string helpers

`pyStrip`, `pyUpper`, `pyLower` model the Python `str.strip()`, `str.upper()`,
`str.lower()` (ASCII case mapping and whitespace stripping, which is all the
source ever feeds them). -/

def pyStrip (s : String) : String :=
  ⟨((s.data.dropWhile Char.isWhitespace).reverse.dropWhile Char.isWhitespace).reverse⟩

def pyUpper (s : String) : String := ⟨s.data.map Char.toUpper⟩

def pyLower (s : String) : String := ⟨s.data.map Char.toLower⟩

/-! ### Card model (`src/models/card.py`) -/

/-- Python `Suit` enumeration, in Python declaration order. -/
inductive Suit
  | SPADES
  | HEARTS
  | DIAMONDS
  | CLUBS
deriving DecidableEq, Fintype

/-- Python `_SUIT_SHORT_NAMES`. -/
def Suit.short_name : Suit → String
  | .SPADES => "s"
  | .HEARTS => "h"
  | .DIAMONDS => "d"
  | .CLUBS => "c"

/-- Python `Rank` enumeration (an `IntEnum` in Python, ordered by `val`). -/
inductive Rank
  | TWO
  | THREE
  | FOUR
  | FIVE
  | SIX
  | SEVEN
  | EIGHT
  | NINE
  | TEN
  | JACK
  | QUEEN
  | KING
  | ACE
deriving DecidableEq, Fintype

/-- The numeric value of a rank (the `IntEnum` value used in comparisons). -/
def Rank.val : Rank → ℕ
  | .TWO => 2
  | .THREE => 3
  | .FOUR => 4
  | .FIVE => 5
  | .SIX => 6
  | .SEVEN => 7
  | .EIGHT => 8
  | .NINE => 9
  | .TEN => 10
  | .JACK => 11
  | .QUEEN => 12
  | .KING => 13
  | .ACE => 14

/-- Python `_RANK_DISPLAY`: canonical one-character representation. -/
def Rank.short_name : Rank → String
  | .TWO => "2"
  | .THREE => "3"
  | .FOUR => "4"
  | .FIVE => "5"
  | .SIX => "6"
  | .SEVEN => "7"
  | .EIGHT => "8"
  | .NINE => "9"
  | .TEN => "T"
  | .JACK => "J"
  | .QUEEN => "Q"
  | .KING => "K"
  | .ACE => "A"

/-- Python `Card`: frozen dataclass with rank and suit (equality by the pair). -/
structure Card where
  rank : Rank
  suit : Suit
deriving DecidableEq, Fintype

/-- Python `Card.__str__`: canonical shorthand such as `"As"` or `"Td"`. -/
def Card.str (c : Card) : String := c.rank.short_name ++ c.suit.short_name

/-! ### Hand context (`src/models/game_state.py`) -/

/-- Python `Position` enumeration with its descriptive labels (`Position.value`). -/
inductive Position
  | UTG
  | MP
  | CO
  | BTN
  | SB
  | BB
deriving DecidableEq, Fintype

/-- The string value of the Python enum (used in reasoning lines). -/
def Position.value : Position → String
  | .UTG => "Under the Gun"
  | .MP => "Middle Position"
  | .CO => "Cutoff"
  | .BTN => "Button"
  | .SB => "Small Blind"
  | .BB => "Big Blind"

/-- Python `Street` enumeration. -/
inductive Street
  | PREFLOP
  | FLOP
  | TURN
  | RIVER
deriving DecidableEq, Fintype

/-- Python `GameState`: snapshot of the current hand context.  Counts that are
Python `int`s are modelled as `ℤ` (validation restricts them to be
non-negative). -/
structure GameState where
  hole_cards : List Card
  board : List Card
  street : Street
  pot_size : ℚ
  bet_to_call : ℚ
  your_stack : ℚ
  opponent_stacks : List ℚ
  your_position : Position
  num_opponents : ℤ
  active_opponents : ℤ
  preflop_action : List String
deriving DecidableEq

/-- Python `GameState.__post_init__` validations: card-count maxima, no duplicate
card between hole and board (duplicates are detected through `str(card)` in
the source), non-negative numeric fields, and opponent-count consistency.
A `GameState` that exists in the running program always satisfies this. -/
def GameState.Valid (gs : GameState) : Prop :=
  gs.hole_cards.length ≤ 2 ∧
  gs.board.length ≤ 5 ∧
  ((gs.hole_cards ++ gs.board).map Card.str).Nodup ∧
  0 ≤ gs.pot_size ∧
  0 ≤ gs.bet_to_call ∧
  0 ≤ gs.your_stack ∧
  (∀ s ∈ gs.opponent_stacks, 0 ≤ s) ∧
  0 ≤ gs.num_opponents ∧
  0 ≤ gs.active_opponents ∧
  gs.active_opponents ≤ gs.num_opponents

instance (gs : GameState) : Decidable gs.Valid := by
  unfold GameState.Valid; infer_instance

/-- Python `GameState.pot_odds` property. -/
def GameState.pot_odds (gs : GameState) : ℚ :=
  if gs.bet_to_call ≤ 0 then 0
  else
    let total := gs.pot_size + gs.bet_to_call
    if total ≤ 0 then 0 else gs.bet_to_call / total

/-- Python `GameState.effective_stack` property: `min([your_stack] + opponent_stacks)`
(the list always contains at least `your_stack`, so the Python `else 0.0`
branch is unreachable). -/
def GameState.effective_stack (gs : GameState) : ℚ :=
  gs.opponent_stacks.foldl min gs.your_stack

/-! ### Odds calculator (`src/engine/odds_calculator.py`) -/

/-- Python `OddsCalculator.calculate_pot_odds`. -/
def calculate_pot_odds (gs : GameState) : Except String ℚ :=
  let bet_to_call := max gs.bet_to_call 0
  if bet_to_call = 0 then .ok 0
  else
    let pot_size := max gs.pot_size 0
    let denominator := pot_size + bet_to_call
    if denominator ≤ 0 then .error "Total pot must be positive when bet_to_call is > 0."
    else .ok (bet_to_call / denominator)

/-- Python `OddsCalculator.calculate_implied_odds`. -/
def calculate_implied_odds (gs : GameState) (future_bets : ℚ) : Except String ℚ :=
  if future_bets < 0 then .error "future_bets cannot be negative."
  else
    let bet_to_call := max gs.bet_to_call 0
    if bet_to_call = 0 then .ok 0
    else
      let pot_size := max gs.pot_size 0
      let denominator := pot_size + future_bets + bet_to_call
      if denominator ≤ 0 then .error "Total pot plus future bets must be positive."
      else .ok (bet_to_call / denominator)

/-! ### Preflop ranges (`src/strategy/ranges.py`)

Python `frozenset`s of combo strings are modelled as lists; the source only
queries them through membership, for which the two are interchangeable. -/

def UTG_OPENING : List String :=
  ["AA", "KK", "QQ", "JJ", "TT", "99", "AKs", "AQs", "AJs", "ATs", "AKo", "AQo", "KQs"]

def MP_ADDITIONS : List String :=
  ["88", "77", "A9s", "A8s", "AJo", "KJs", "KTs", "QJs"]

def CO_ADDITIONS : List String :=
  ["66", "55", "ATo", "KQo", "QTs", "JTs", "T9s", "A7s", "A6s", "A5s", "A4s", "A3s", "A2s"]

def ALL_PAIRS : List String :=
  ["AA", "KK", "QQ", "JJ", "TT", "99", "88", "77", "66", "55", "44", "33", "22"]

def BROADWAY_SUITS : List String :=
  ["AKs", "AQs", "AJs", "ATs", "KQs", "KJs", "QJs", "JTs", "KTs", "QTs", "J9s", "T9s",
   "98s", "87s", "76s", "65s", "54s"]

def BROADWAY_OFFSUIT : List String :=
  ["AKo", "AQo", "AJo", "ATo", "KQo", "KJo", "QJo", "JTo"]

def SUITED_ACES : List String :=
  ["A9s", "A8s", "A7s", "A6s", "A5s", "A4s", "A3s", "A2s"]

def SB_EXTRA : List String :=
  ["KTo", "QTo", "JTo", "T9o", "98o", "A9o", "A8o", "K9s", "Q9s", "J8s", "T8s", "97s",
   "86s", "75s"]

def BB_EXTRA : List String :=
  ["A7o", "A6o", "A5o", "A4o", "A3o", "A2o", "K9o", "Q9o", "J9o", "T8o", "97o", "86o",
   "76o", "65o"]

/-- Python `_normalize_combo_literal`: canonical formatting of a combo string. -/
def normalize_combo_literal (hand : String) : Except String String :=
  let cleaned := pyStrip hand
  if cleaned.length = 2 then .ok (pyUpper cleaned)
  else if cleaned.length = 3 then
    .ok (pyUpper ⟨cleaned.data.take 2⟩ ++ pyLower ⟨cleaned.data.drop 2⟩)
  else .error ("Invalid combo representation: " ++ hand)

/-- Python `_freeze`: normalize every combo literal of a set. -/
def freeze (values : List String) : Except String (List String) :=
  values.mapM normalize_combo_literal

/-- The `PreflopRanges.OPENING_RANGES` dict exactly as it is constructed when
the module loads (`Position.UTG` maps to the raw `_UTG_OPENING` set; the others are
layered unions passed through `_freeze`).  Python set union is modelled as
list append (membership-equivalent). -/
def OPENING_RANGES_built : Position → Except String (List String)
  | .UTG => .ok UTG_OPENING
  | .MP => freeze (UTG_OPENING ++ MP_ADDITIONS)
  | .CO => freeze (UTG_OPENING ++ MP_ADDITIONS ++ CO_ADDITIONS)
  | .BTN => freeze (ALL_PAIRS ++ BROADWAY_SUITS ++ BROADWAY_OFFSUIT ++ SUITED_ACES)
  | .SB => freeze (ALL_PAIRS ++ BROADWAY_SUITS ++ BROADWAY_OFFSUIT ++ SUITED_ACES ++ SB_EXTRA)
  | .BB => freeze (ALL_PAIRS ++ BROADWAY_SUITS ++ BROADWAY_OFFSUIT ++ SUITED_ACES ++ SB_EXTRA
      ++ BB_EXTRA)

/-- The opening-range table held in memory after a successful import.  The
companion lemma `OPENING_RANGES_built_ok` certifies that the construction
never hits the `_normalize_combo_literal` failure path, so the table is total. -/
def OPENING_RANGES (p : Position) : List String :=
  match OPENING_RANGES_built p with
  | .ok l => l
  | .error _ => []

/-- Python `PreflopRanges.normalize_hand`, after the two card strings have been
parsed back into `Card` values (`Card.from_string(str(card)) == card`, so the
decision engine always reaches this point with the two hero cards).
`sorted(..., key=rank, reverse=True)` is a stable sort on two elements: the
second card comes first exactly when its rank is strictly greater. -/
def normalize_hand (card1 card2 : Card) : String :=
  let rank1 := pyUpper card1.rank.short_name
  let rank2 := pyUpper card2.rank.short_name
  if rank1 = rank2 then rank1 ++ rank2
  else
    let high := if card2.rank.val > card1.rank.val then card2 else card1
    let low := if card2.rank.val > card1.rank.val then card1 else card2
    let sfx := if high.suit = low.suit then "s" else "o"
    pyUpper high.rank.short_name ++ pyUpper low.rank.short_name ++ sfx

/-- Python `PreflopRanges.should_open` (the `position not in OPENING_RANGES` guard is
unreachable: the dict carries every `Position`). -/
def should_open (hand : String) (position : Position) : Except String Bool :=
  match normalize_combo_literal hand with
  | .error e => .error e
  | .ok normalized => .ok (decide (normalized ∈ OPENING_RANGES position))

/-! ### Monte Carlo simulator (`src/engine/monte_carlo.py`)

The treys hand-rank oracle (`HandEvaluator.evaluate_hand`) is abstracted as a
parameter `eval : List Card → List Card → ℤ` (hole cards, board → rank, lower
is better), and `random.shuffle` as `shuffle : ℕ → List Card → List Card`
giving the shuffled working deck of each trial (trials re-shuffle
independently, so the trial index is the only dependency). -/

/-- Iteration order of the `Rank` enum. -/
def Rank.all : List Rank :=
  [.TWO, .THREE, .FOUR, .FIVE, .SIX, .SEVEN, .EIGHT, .NINE, .TEN, .JACK, .QUEEN, .KING, .ACE]

/-- Iteration order of the `Suit` enum. -/
def Suit.all : List Suit := [.SPADES, .HEARTS, .DIAMONDS, .CLUBS]

/-- The 52-card deck in the order `[Card(rank, suit) for rank in Rank for suit in Suit]`. -/
def full_deck : List Card :=
  Rank.all.flatMap fun r => Suit.all.map fun s => ⟨r, s⟩

/-- The filter in `create_deck`: all 52 cards minus the exclusions, compared
through `str(card)` exactly as the source does. -/
def deck_minus (exclude_cards : List Card) : List Card :=
  let excluded := exclude_cards.map Card.str
  full_deck.filter fun c => c.str ∉ excluded

/-- Python `MonteCarloSimulator.create_deck` (the `isinstance` check of
`_validate_cards` is enforced by typing; `_ensure_unique` raises on duplicate
exclusions). -/
def create_deck (exclude_cards : List Card) : Except String (List Card) :=
  if (exclude_cards.map Card.str).Nodup then .ok (deck_minus exclude_cards)
  else .error "Duplicate cards detected in exclude_cards."

/-- Outcome of a single simulated showdown for the hero. -/
inductive TrialResult
  | win
  | tie
  | loss
deriving DecidableEq

/-- The opponent-dealing loop of one trial: two cards per opponent off the top
of the remaining deck, each evaluated against the completed board. -/
def deal_opponents (eval : List Card → List Card → ℤ) (sim_board : List Card) :
    ℕ → List Card → Except String (List ℤ)
  | 0, _ => .ok []
  | n + 1, deck =>
    if deck.length < 2 then .error "Deck exhausted while dealing opponent hands."
    else
      match deal_opponents eval sim_board n (deck.drop 2) with
      | .error e => .error e
      | .ok rest => .ok (eval (deck.take 2) sim_board :: rest)

/-- One simulation trial (the body of the `for _ in range(self.num_simulations)`
loop): complete the board from the shuffled deck, deal the opponents, and
compare treys ranks (`min` of an empty Python list raises, hence the error
branch — unreachable once `num_opponents ≥ 1`). -/
def run_trial (eval : List Card → List Card → ℤ) (hero_cards board : List Card)
    (num_opponents : ℕ) (shuffled : List Card) : Except String TrialResult :=
  let board_needed := 5 - board.length
  let sim_board := board ++ shuffled.take board_needed
  let deck := shuffled.drop board_needed
  let hero_rank := eval hero_cards sim_board
  match deal_opponents eval sim_board num_opponents deck with
  | .error e => .error e
  | .ok [] => .error "min() arg is an empty sequence"
  | .ok (r :: rs) =>
    let best_opponent_rank := rs.foldl min r
    if hero_rank < best_opponent_rank then .ok .win
    else if hero_rank = best_opponent_rank then .ok .tie
    else .ok .loss

/-- The tallying loop: runs the indexed trials in order, aborting at the first
failure, and accumulates the `wins` and `ties` counters. -/
def tally_trials (step : ℕ → Except String TrialResult) :
    List ℕ → Except String (ℕ × ℕ)
  | [] => .ok (0, 0)
  | i :: rest =>
    match step i with
    | .error e => .error e
    | .ok r =>
      match tally_trials step rest with
      | .error e => .error e
      | .ok (w, t) =>
        match r with
        | .win => .ok (w + 1, t)
        | .tie => .ok (w, t + 1)
        | .loss => .ok (w, t)

/-- Python `MonteCarloSimulator.simulate_equity`.  `num_opponents` is a Python `int`
(`ℤ`); `num_simulations` is validated to be positive by the constructor, which
is carried as a hypothesis by the theorems.  The first `board > 5` test is the
`max_length=5` check inside `_validate_cards`; the source then repeats it. -/
def simulate_equity (eval : List Card → List Card → ℤ)
    (shuffle : ℕ → List Card → List Card) (num_simulations : ℕ)
    (hero_cards board : List Card) (num_opponents : ℤ) : Except String ℚ :=
  if 5 < board.length then .error "board cannot contain more than 5 cards."
  else if hero_cards.length ≠ 2 then .error "hero_cards must contain exactly two cards."
  else if 5 < board.length then .error "board cannot contain more than five cards."
  else if num_opponents < 1 then .error "num_opponents must be at least 1."
  else if ¬ ((hero_cards ++ board).map Card.str).Nodup then
    .error "Duplicate cards detected in input cards."
  else
    match create_deck (hero_cards ++ board) with
    | .error e => .error e
    | .ok base_deck =>
      let cards_needed : ℤ := max 0 (5 - (board.length : ℤ)) + num_opponents * 2
      if (base_deck.length : ℤ) < cards_needed then
        .error "Not enough cards remaining to complete the simulation."
      else
        match tally_trials
            (fun i => run_trial eval hero_cards board num_opponents.toNat (shuffle i base_deck))
            (List.range num_simulations) with
        | .error e => .error e
        | .ok (wins, ties) => .ok (((wins : ℚ) + 0.5 * (ties : ℚ)) / (num_simulations : ℚ))

/-- The per-trial step function used by `simulate_equity` (named so that the
wins/ties/losses tallies can be stated about it). -/
def trial_step (eval : List Card → List Card → ℤ)
    (shuffle : ℕ → List Card → List Card) (hero_cards board : List Card)
    (num_opponents : ℤ) (i : ℕ) : Except String TrialResult :=
  run_trial eval hero_cards board num_opponents.toNat
    (shuffle i (deck_minus (hero_cards ++ board)))

/-- Number of trials the hero wins outright. -/
def sim_wins (eval : List Card → List Card → ℤ) (shuffle : ℕ → List Card → List Card)
    (num_simulations : ℕ) (hero_cards board : List Card) (num_opponents : ℤ) : ℕ :=
  (List.range num_simulations).countP fun i =>
    trial_step eval shuffle hero_cards board num_opponents i = .ok .win

/-- Number of trials the hero ties. -/
def sim_ties (eval : List Card → List Card → ℤ) (shuffle : ℕ → List Card → List Card)
    (num_simulations : ℕ) (hero_cards board : List Card) (num_opponents : ℤ) : ℕ :=
  (List.range num_simulations).countP fun i =>
    trial_step eval shuffle hero_cards board num_opponents i = .ok .tie

/-- Number of trials the hero loses. -/
def sim_losses (eval : List Card → List Card → ℤ) (shuffle : ℕ → List Card → List Card)
    (num_simulations : ℕ) (hero_cards board : List Card) (num_opponents : ℤ) : ℕ :=
  (List.range num_simulations).countP fun i =>
    trial_step eval shuffle hero_cards board num_opponents i = .ok .loss

/-! ### Decision engine (`src/engine/decision_engine.py`)

`_estimate_equity` calls the Monte Carlo simulator at most once per
recommendation; the randomized simulator outcome enters the engine only as
the returned float or the raised `ValueError`.  That outcome is abstracted as
a parameter `sim_result : Except String ℚ` threaded through the engine. -/

/-- Python `ActionType` enumeration (`src/models/action.py`). -/
inductive ActionType
  | FOLD
  | CHECK
  | CALL
  | BET
  | RAISE
  | ALL_IN
deriving DecidableEq, Fintype

/-- Python `DecisionResult` container. -/
structure DecisionResult where
  action : ActionType
  amount : ℚ
  reasoning : List String
deriving DecidableEq

/-- Python `DecisionEngine.PREMIUM_HANDS`. -/
def PREMIUM_HANDS : List String := ["AA", "KK", "QQ", "AKS", "AKO"]

/-- Python `DecisionEngine.STRONG_HANDS`. -/
def STRONG_HANDS : List String := ["JJ", "TT", "99", "AQS", "AJS", "AQO", "KQS"]

/-- Python `DecisionEngine.SPECULATIVE_HANDS` (the source applies `.upper()` to each
literal). -/
def SPECULATIVE_HANDS : List String :=
  ["ATS", "KJS", "QJS", "JTS", "T9S", "98S", "87S", "A5S", "A4S", "A3S", "A2S", "KTS", "QTS"]

/-- Python `DecisionEngine._estimate_equity`: the simulator value, with a raised
`ValueError` caught and replaced by the neutral default `0.0`. -/
def estimate_equity (sim_result : Except String ℚ) : ℚ :=
  match sim_result with
  | .ok v => v
  | .error _ => 0

/-- Python `DecisionEngine._format_percentage`.  The Python renders `value * 100`
with one decimal place; the decimal formatting of the display string is
elided (it is display-only and never inspected). -/
def format_percentage (value : ℚ) : String := toString (value * 100) ++ "%"

/-- Python `DecisionEngine._multiway_adjustment`. -/
def multiway_adjustment (opponents : ℤ) : ℚ := ((max 0 (opponents - 1) : ℤ) : ℚ) * 0.05

/-- Python `DecisionEngine._infer_big_blind`. -/
def infer_big_blind (gs : GameState) : ℚ :=
  if 0 < gs.pot_size then max 1 (gs.pot_size / 1.5) else 10

/-- Python `DecisionEngine._suggest_open_raise`. -/
def suggest_open_raise (gs : GameState) : ℚ :=
  min (2.7 * infer_big_blind gs) gs.your_stack

/-- Python `DecisionEngine._suggest_3bet_size`. -/
def suggest_3bet_size (gs : GameState) : ℚ :=
  let base := if 0 < gs.bet_to_call then gs.bet_to_call * 3 else infer_big_blind gs * 3
  min base gs.your_stack

/-- Python `DecisionEngine._suggest_value_bet`. -/
def suggest_value_bet (gs : GameState) : ℚ :=
  min (max (gs.pot_size * 0.6) (gs.pot_size * 0.5)) gs.your_stack

/-- Python `DecisionEngine._suggest_small_bet`. -/
def suggest_small_bet (gs : GameState) : ℚ :=
  let amount := gs.pot_size * 0.4
  if 0 < amount then min amount gs.your_stack else 0

/-- Python `DecisionEngine._suggest_raise_size`. -/
def suggest_raise_size (gs : GameState) : ℚ :=
  min (max (gs.bet_to_call * 2.5) (gs.pot_size * 0.8)) gs.your_stack

/-- Python `DecisionEngine._short_stack_adjustment`. -/
def short_stack_adjustment (gs : GameState) (action : ActionType) (amount : ℚ)
    (reasoning : List String) : DecisionResult :=
  let effective_stack := gs.effective_stack
  if effective_stack ≤ max (gs.pot_size * 1.5) gs.bet_to_call then
    ⟨.ALL_IN, effective_stack,
      reasoning ++ ["Stack efetivo curto → considerar all-in simplificado."]⟩
  else ⟨action, min amount gs.your_stack, reasoning⟩

/-- The speculative-tier check and final fold of `_recommend_preflop`
(lines 115-124): Python control flow falls through to this block both from
the non-strong case and from a strong hand that missed both of its equity
thresholds. -/
def preflop_speculative (gs : GameState) (normalized_combo : String) (equity : ℚ)
    (reasoning : List String) : Except String DecisionResult :=
  if normalized_combo ∈ SPECULATIVE_HANDS then
    match calculate_implied_odds gs (gs.pot_size * 0.5) with
    | .error e => .error e
    | .ok implied_odds =>
      let reasoning := reasoning ++ ["Implied odds aproximadas: " ++ format_percentage implied_odds]
      if implied_odds ≤ equity then
        .ok (short_stack_adjustment gs .CALL (min gs.bet_to_call gs.your_stack)
          (reasoning ++ ["Equity cobre as implied odds → call especulativo."]))
      else .ok ⟨.FOLD, 0, reasoning ++ ["Equity insuficiente → Fold."]⟩
  else .ok ⟨.FOLD, 0, reasoning ++ ["Equity insuficiente → Fold."]⟩

/-- The body of `_recommend_preflop` once the two hole cards are in hand. -/
def recommend_preflop_cards (sim_result : Except String ℚ) (gs : GameState)
    (card1 card2 : Card) : Except String DecisionResult :=
  let combo := normalize_hand card1 card2
    let reasoning := ["Mão normalizada: " ++ combo, "Posição: " ++ gs.your_position.value]
    match (if 0 < gs.bet_to_call then calculate_pot_odds gs else .ok 0) with
    | .error e => .error e
    | .ok pot_odds =>
      let reasoning :=
        if 0 < gs.bet_to_call then reasoning ++ ["Pot odds: " ++ format_percentage pot_odds]
        else reasoning
      if gs.bet_to_call = 0 then
        match should_open combo gs.your_position with
        | .error e => .error e
        | .ok b =>
          if b then
            .ok ⟨.RAISE, suggest_open_raise gs,
              reasoning ++ ["Mão está no range de abertura para a posição."]⟩
          else .ok ⟨.FOLD, 0, reasoning ++ ["Mão fora do range de abertura → Fold."]⟩
      else
        let normalized_combo := pyUpper combo
        if normalized_combo ∈ PREMIUM_HANDS then
          .ok (short_stack_adjustment gs .RAISE (suggest_3bet_size gs)
            (reasoning ++ ["Mão premium → aproveitar valor com 3-bet."]))
        else
          let equity := estimate_equity sim_result
          let reasoning :=
            reasoning ++ ["Equity estimada vs range adversário: " ++ format_percentage equity]
          let multiway_adjust := multiway_adjustment gs.active_opponents
          let required_equity := pot_odds + multiway_adjust
          let reasoning := reasoning ++
            ["Equity mínima considerando pot odds e multiway: " ++
              format_percentage required_equity]
          if normalized_combo ∈ STRONG_HANDS then
            if required_equity + 0.1 ≤ equity then
              .ok (short_stack_adjustment gs .RAISE (suggest_3bet_size gs)
                (reasoning ++ ["Equity bem acima do necessário → agressão."]))
            else if required_equity ≤ equity then
              .ok (short_stack_adjustment gs .CALL (min gs.bet_to_call gs.your_stack)
                (reasoning ++ ["Equity suficiente para pagar a aposta."]))
            else preflop_speculative gs normalized_combo equity reasoning
          else preflop_speculative gs normalized_combo equity reasoning

/-- Python `DecisionEngine._recommend_preflop`.  `normalize_hand(*hero_cards)` needs
exactly two hole cards (`recommend_action` has already validated this; any
other shape would be a Python `TypeError`, modelled by the error branch). -/
def recommend_preflop (sim_result : Except String ℚ) (gs : GameState) :
    Except String DecisionResult :=
  match gs.hole_cards with
  | [card1, card2] => recommend_preflop_cards sim_result gs card1 card2
  | _ => .error "normalize_hand expects exactly two cards."

/-- Python `DecisionEngine._recommend_postflop`. -/
def recommend_postflop (sim_result : Except String ℚ) (gs : GameState) :
    Except String DecisionResult :=
  let reasoning :=
    if gs.board.length < 3 ∧ gs.street ≠ Street.PREFLOP then
      ["⚠️ Board incompleto - resultados podem ser imprecisos."]
    else []
  let equity := estimate_equity sim_result
  let reasoning := reasoning ++ ["Equity estimada: " ++ format_percentage equity]
  match (if 0 < gs.bet_to_call then calculate_pot_odds gs else .ok 0) with
  | .error e => .error e
  | .ok pot_odds =>
    let reasoning := reasoning ++ ["Pot odds atuais: " ++ format_percentage pot_odds]
    let multiway_adjust := multiway_adjustment gs.active_opponents
    let reasoning := reasoning ++
      ["Ajuste multiway: +" ++ format_percentage multiway_adjust ++ " de equity necessária."]
    if gs.bet_to_call = 0 then
      if 0.65 + multiway_adjust ≤ equity then
        .ok (short_stack_adjustment gs .BET (suggest_value_bet gs)
          (reasoning ++ ["Equity muito alta → apostar por valor."]))
      else if 0.45 + multiway_adjust ≤ equity then
        let reasoning := reasoning ++ ["Equity média → linha passiva ou aposta pequena."]
        let amount := suggest_small_bet gs
        if 0 < amount then .ok (short_stack_adjustment gs .BET amount reasoning)
        else .ok ⟨.CHECK, 0, reasoning⟩
      else .ok ⟨.CHECK, 0, reasoning ++ ["Equity baixa → manter controle do pote."]⟩
    else
      let required_equity := pot_odds * 1.15 + multiway_adjust
      let reasoning := reasoning ++
        ["Equity mínima para continuação: " ++ format_percentage required_equity]
      if required_equity ≤ equity then
        if 0.70 + multiway_adjust ≤ equity then
          .ok (short_stack_adjustment gs .RAISE (suggest_raise_size gs)
            (reasoning ++ ["Equity dominante → raise por valor."]))
        else
          .ok (short_stack_adjustment gs .CALL (min gs.bet_to_call gs.your_stack)
            (reasoning ++ ["Equity suficiente → call lucrativo."]))
      else .ok ⟨.FOLD, 0, reasoning ++ ["Equity abaixo da exigência → Fold recomendado."]⟩

/-- Python `DecisionEngine.recommend_action`: the public API, returning the tuple
`(action, amount, reasoning)`. -/
def recommend_action (sim_result : Except String ℚ) (gs : GameState) :
    Except String (ActionType × ℚ × List String) :=
  if gs.hole_cards.length ≠ 2 then
    .error "É necessário informar exatamente duas cartas na mão."
  else
    match (if gs.street = Street.PREFLOP then recommend_preflop sim_result gs
           else recommend_postflop sim_result gs) with
    | .error e => .error e
    | .ok r => .ok (r.action, r.amount, r.reasoning)

/-- The action component of a `recommend_action` outcome. -/
def result_action : Except String (ActionType × ℚ × List String) → Option ActionType
  | .ok (a, _, _) => some a
  | .error _ => none

/-- The amount component of a `recommend_action` outcome. -/
def result_amount : Except String (ActionType × ℚ × List String) → Option ℚ
  | .ok (_, amt, _) => some amt
  | .error _ => none

/-! ### Concrete hand snapshots used by witnesses and counterexamples -/

/-- C1 counterexample state: pocket aces under the gun, unopened pot, short
stack (effective stack 40 ≤ max(1.5 × 100, 0) = 150). -/
def gsC1x : GameState :=
  { hole_cards := [⟨.ACE, .SPADES⟩, ⟨.ACE, .DIAMONDS⟩], board := [], street := .PREFLOP,
    pot_size := 100, bet_to_call := 0, your_stack := 40, opponent_stacks := [40],
    your_position := .UTG, num_opponents := 1, active_opponents := 1, preflop_action := [] }

/-- C1 witness state: the short-stack scenario of the spec (stack 40, pot 100,
bet to call 20) on the flop. -/
def gsC1w : GameState :=
  { hole_cards := [⟨.ACE, .SPADES⟩, ⟨.ACE, .DIAMONDS⟩],
    board := [⟨.TWO, .CLUBS⟩, ⟨.SEVEN, .DIAMONDS⟩, ⟨.NINE, .SPADES⟩], street := .FLOP,
    pot_size := 100, bet_to_call := 20, your_stack := 40, opponent_stacks := [40],
    your_position := .BTN, num_opponents := 1, active_opponents := 1, preflop_action := [] }

/-- C3 counterexample state: facing an overbet (pot 10, bet 50), so
`required_equity = (50/60) × 1.15 = 23/24`, above the 0.70 raise bar. -/
def gsC3x : GameState :=
  { hole_cards := [⟨.KING, .SPADES⟩, ⟨.KING, .DIAMONDS⟩],
    board := [⟨.TWO, .CLUBS⟩, ⟨.SEVEN, .DIAMONDS⟩, ⟨.NINE, .SPADES⟩], street := .FLOP,
    pot_size := 10, bet_to_call := 50, your_stack := 1000, opponent_stacks := [1000],
    your_position := .BTN, num_opponents := 1, active_opponents := 1, preflop_action := [] }

/-- Deep-stacked flop state facing a half-pot bet (pot 100, bet 50); the
per-claim witness states below are aliases of this template. -/
def gsC3w : GameState :=
  { hole_cards := [⟨.KING, .SPADES⟩, ⟨.KING, .DIAMONDS⟩],
    board := [⟨.TWO, .CLUBS⟩, ⟨.SEVEN, .DIAMONDS⟩, ⟨.NINE, .SPADES⟩], street := .FLOP,
    pot_size := 100, bet_to_call := 50, your_stack := 1000, opponent_stacks := [1000],
    your_position := .BTN, num_opponents := 1, active_opponents := 1, preflop_action := [] }

/-- C5 witness state: pot 100, bet to call 50. -/
def gsC5w : GameState := gsC3w

/-- C10 witness state: deep-stacked flop facing a bet. -/
def gsC10w : GameState := gsC3w

/-- C4 witness states: an invalid request with one hole card, and a valid
deep-stacked flop request. -/
def gsC4bad : GameState :=
  { hole_cards := [⟨.ACE, .SPADES⟩], board := [], street := .PREFLOP,
    pot_size := 0, bet_to_call := 0, your_stack := 1000, opponent_stacks := [1000],
    your_position := .BTN, num_opponents := 1, active_opponents := 1, preflop_action := [] }

/-- C4 witness valid state. -/
def gsC4ok : GameState := gsC3w

/-- C8 witness state. -/
def gsC8w : GameState := gsC3w

/-! ### Supporting lemmas -/

set_option maxRecDepth 4000 in
theorem OPENING_RANGES_built_ok (p : Position) :
    OPENING_RANGES_built p = .ok (OPENING_RANGES p) := by
  cases p <;> rfl

theorem foldl_min_le (l : List ℚ) (a : ℚ) : l.foldl min a ≤ a := by
  induction l generalizing a with
  | nil => exact le_refl a
  | cons x xs ih => exact le_trans (ih (min a x)) (min_le_left a x)

theorem le_foldl_min (l : List ℚ) (a b : ℚ) (ha : b ≤ a) (hl : ∀ x ∈ l, b ≤ x) :
    b ≤ l.foldl min a := by
  induction l generalizing a with
  | nil => exact ha
  | cons x xs ih =>
    exact ih (min a x) (le_min ha (hl x (List.mem_cons_self x xs)))
      fun y hy => hl y (List.mem_cons_of_mem x hy)

theorem effective_stack_le (gs : GameState) : gs.effective_stack ≤ gs.your_stack :=
  foldl_min_le gs.opponent_stacks gs.your_stack

theorem effective_stack_nonneg (gs : GameState) (hs : 0 ≤ gs.your_stack)
    (ho : ∀ s ∈ gs.opponent_stacks, 0 ≤ s) : 0 ≤ gs.effective_stack :=
  le_foldl_min gs.opponent_stacks gs.your_stack 0 hs ho

theorem pot_odds_of_pos (gs : GameState) (hp : 0 ≤ gs.pot_size) (hb : 0 < gs.bet_to_call) :
    gs.pot_odds = gs.bet_to_call / (gs.pot_size + gs.bet_to_call) := by
  unfold GameState.pot_odds
  rw [if_neg (not_le.mpr hb), if_neg (not_le.mpr (by linarith))]

theorem pot_odds_of_zero (gs : GameState) (hb : gs.bet_to_call = 0) : gs.pot_odds = 0 := by
  unfold GameState.pot_odds
  rw [if_pos (le_of_eq hb)]

theorem pot_odds_pos (gs : GameState) (hp : 0 ≤ gs.pot_size) (hb : 0 < gs.bet_to_call) :
    0 < gs.pot_odds := by
  rw [pot_odds_of_pos gs hp hb]
  exact div_pos hb (by linarith)

theorem calculate_pot_odds_eq (gs : GameState) (hp : 0 ≤ gs.pot_size)
    (hb : 0 ≤ gs.bet_to_call) : calculate_pot_odds gs = .ok gs.pot_odds := by
  unfold calculate_pot_odds
  rcases lt_or_eq_of_le hb with hpos | hzero
  · rw [max_eq_left hb, if_neg (ne_of_gt hpos), max_eq_left hp,
      if_neg (not_le.mpr (by linarith)), pot_odds_of_pos gs hp hpos]
  · rw [max_eq_left hb, if_pos hzero.symm, pot_odds_of_zero gs hzero.symm]

theorem calculate_implied_odds_ok (gs : GameState) (future_bets : ℚ)
    (hp : 0 ≤ gs.pot_size) (hf : 0 ≤ future_bets) :
    ∃ q, calculate_implied_odds gs future_bets = .ok q := by
  unfold calculate_implied_odds
  rw [if_neg (not_lt.mpr hf)]
  by_cases hb : max gs.bet_to_call 0 = 0
  · exact ⟨0, by rw [if_pos hb]⟩
  · have hbpos : 0 < max gs.bet_to_call 0 := lt_of_le_of_ne (le_max_right _ _) (Ne.symm hb)
    have hden : ¬ (max gs.pot_size 0 + future_bets + max gs.bet_to_call 0 ≤ 0) := by
      have h1 : (0:ℚ) ≤ max gs.pot_size 0 := le_max_right _ _
      push_neg
      linarith
    exact ⟨_, by rw [if_neg hb, if_neg hden]⟩

theorem multiway_adjustment_nonneg (n : ℤ) : 0 ≤ multiway_adjustment n := by
  unfold multiway_adjustment
  have h : (0:ℤ) ≤ max 0 (n - 1) := le_max_left _ _
  have h2 : (0:ℚ) ≤ ((max 0 (n - 1) : ℤ) : ℚ) := by exact_mod_cast h
  nlinarith

theorem infer_big_blind_pos (gs : GameState) : 0 < infer_big_blind gs := by
  unfold infer_big_blind
  by_cases h : 0 < gs.pot_size
  · rw [if_pos h]; exact lt_of_lt_of_le one_pos (le_max_left _ _)
  · rw [if_neg h]; norm_num

theorem suggest_open_raise_bounds (gs : GameState) (hs : 0 ≤ gs.your_stack) :
    0 ≤ suggest_open_raise gs ∧ suggest_open_raise gs ≤ gs.your_stack := by
  unfold suggest_open_raise
  have hbb := infer_big_blind_pos gs
  exact ⟨le_min (by nlinarith) hs, min_le_right _ _⟩

theorem suggest_3bet_size_bounds (gs : GameState) (hs : 0 ≤ gs.your_stack) :
    0 ≤ suggest_3bet_size gs ∧ suggest_3bet_size gs ≤ gs.your_stack := by
  unfold suggest_3bet_size
  have hbb := infer_big_blind_pos gs
  refine ⟨le_min ?_ hs, min_le_right _ _⟩
  by_cases h : 0 < gs.bet_to_call
  · rw [if_pos h]; nlinarith
  · rw [if_neg h]; nlinarith

theorem suggest_value_bet_bounds (gs : GameState) (hp : 0 ≤ gs.pot_size)
    (hs : 0 ≤ gs.your_stack) :
    0 ≤ suggest_value_bet gs ∧ suggest_value_bet gs ≤ gs.your_stack := by
  unfold suggest_value_bet
  exact ⟨le_min (le_trans (by nlinarith) (le_max_left _ _)) hs, min_le_right _ _⟩

theorem suggest_small_bet_bounds (gs : GameState) (hs : 0 ≤ gs.your_stack) :
    0 ≤ suggest_small_bet gs ∧ suggest_small_bet gs ≤ gs.your_stack := by
  unfold suggest_small_bet
  by_cases h : 0 < gs.pot_size * 0.4
  · rw [if_pos h]
    exact ⟨le_min (le_of_lt h) hs, min_le_right _ _⟩
  · rw [if_neg h]
    exact ⟨le_refl 0, hs⟩

theorem suggest_raise_size_bounds (gs : GameState) (hp : 0 ≤ gs.pot_size)
    (hb : 0 ≤ gs.bet_to_call) (hs : 0 ≤ gs.your_stack) :
    0 ≤ suggest_raise_size gs ∧ suggest_raise_size gs ≤ gs.your_stack := by
  unfold suggest_raise_size
  exact ⟨le_min (le_trans (by nlinarith) (le_max_left _ _)) hs, min_le_right _ _⟩

theorem min_bet_stack_bounds (gs : GameState) (hb : 0 ≤ gs.bet_to_call)
    (hs : 0 ≤ gs.your_stack) :
    0 ≤ min gs.bet_to_call gs.your_stack ∧ min gs.bet_to_call gs.your_stack ≤ gs.your_stack :=
  ⟨le_min hb hs, min_le_right _ _⟩

/-- Behaviour of the short-stack override: bounded output, preserved
reasoning trail, and the forced all-in under the short-stack condition. -/
theorem short_stack_adjustment_spec (gs : GameState) (a : ActionType) (amount : ℚ)
    (rs : List String) (hs : 0 ≤ gs.your_stack) (ho : ∀ s ∈ gs.opponent_stacks, 0 ≤ s)
    (hamt : 0 ≤ amount) (hrs : rs ≠ []) :
    0 ≤ (short_stack_adjustment gs a amount rs).amount ∧
    (short_stack_adjustment gs a amount rs).amount ≤ gs.your_stack ∧
    (short_stack_adjustment gs a amount rs).reasoning ≠ [] ∧
    (gs.effective_stack ≤ max (gs.pot_size * 1.5) gs.bet_to_call →
      (short_stack_adjustment gs a amount rs).action = ActionType.ALL_IN ∧
      (short_stack_adjustment gs a amount rs).amount = gs.effective_stack) := by
  unfold short_stack_adjustment
  by_cases hcond : gs.effective_stack ≤ max (gs.pot_size * 1.5) gs.bet_to_call
  · rw [if_pos hcond]
    refine ⟨effective_stack_nonneg gs hs ho, effective_stack_le gs, ?_, fun _ => ⟨rfl, rfl⟩⟩
    simp
  · rw [if_neg hcond]
    exact ⟨le_min hamt hs, min_le_right _ _, hrs, fun h => absurd h hcond⟩

set_option maxHeartbeats 1000000 in
theorem normalize_combo_literal_ok (c1 c2 : Card) :
    (normalize_combo_literal (normalize_hand c1 c2)).isOk = true := by
  revert c1 c2; decide

theorem should_open_ok (c1 c2 : Card) (p : Position) :
    ∃ b, should_open (normalize_hand c1 c2) p = .ok b := by
  have h := normalize_combo_literal_ok c1 c2
  unfold should_open
  cases heq : normalize_combo_literal (normalize_hand c1 c2) with
  | error e => rw [heq] at h; exact absurd h (by simp [Except.isOk, Except.toBool])
  | ok s => exact ⟨_, rfl⟩

theorem preflop_speculative_shape (gs : GameState) (combo : String) (equity : ℚ)
    (rs : List String) (hp : 0 ≤ gs.pot_size) (hb : 0 ≤ gs.bet_to_call)
    (hs : 0 ≤ gs.your_stack) (ho : ∀ s ∈ gs.opponent_stacks, 0 ≤ s) (hrs : rs ≠ []) :
    ∃ r, preflop_speculative gs combo equity rs = .ok r ∧
      0 ≤ r.amount ∧ r.amount ≤ gs.your_stack ∧ r.reasoning ≠ [] ∧
      (gs.effective_stack ≤ max (gs.pot_size * 1.5) gs.bet_to_call →
        (r.action = ActionType.ALL_IN ∧ r.amount = gs.effective_stack) ∨
        (r.action = ActionType.FOLD ∧ r.amount = 0)) := by
  unfold preflop_speculative
  by_cases hmem : combo ∈ SPECULATIVE_HANDS
  · rw [if_pos hmem]
    obtain ⟨q, hq⟩ := calculate_implied_odds_ok gs (gs.pot_size * 0.5) hp (by nlinarith)
    simp only [hq]
    by_cases hcall : q ≤ equity
    · rw [if_pos hcall]
      obtain ⟨hA, hB, hC, hD⟩ := short_stack_adjustment_spec gs .CALL
        (min gs.bet_to_call gs.your_stack)
        (rs ++ ["Implied odds aproximadas: " ++ format_percentage q] ++
          ["Equity cobre as implied odds → call especulativo."])
        hs ho (min_bet_stack_bounds gs hb hs).1 (by simp)
      exact ⟨_, rfl, hA, hB, hC, fun hcond => Or.inl (hD hcond)⟩
    · rw [if_neg hcall]
      exact ⟨_, rfl, le_refl 0, hs, by simp, fun _ => Or.inr ⟨rfl, rfl⟩⟩
  · rw [if_neg hmem]
    exact ⟨_, rfl, le_refl 0, hs, by simp, fun _ => Or.inr ⟨rfl, rfl⟩⟩

theorem append_singleton_ne_nil (l : List String) (s : String) : l ++ [s] ≠ [] := by simp

theorem recommend_preflop_eq (sim : Except String ℚ) (gs : GameState) (c1 c2 : Card)
    (hc : gs.hole_cards = [c1, c2]) :
    recommend_preflop sim gs = recommend_preflop_cards sim gs c1 c2 := by
  unfold recommend_preflop
  rw [hc]

/-- Every run of the preflop branch returns a bounded, explained result, and
under the short-stack condition the result is a forced all-in, a fold, or the
open-raise of the unopened-pot branch (which bypasses the override). -/
theorem recommend_preflop_cards_shape (sim : Except String ℚ) (gs : GameState) (c1 c2 : Card)
    (hp : 0 ≤ gs.pot_size) (hb : 0 ≤ gs.bet_to_call) (hs : 0 ≤ gs.your_stack)
    (ho : ∀ s ∈ gs.opponent_stacks, 0 ≤ s) :
    ∃ r, recommend_preflop_cards sim gs c1 c2 = .ok r ∧
      0 ≤ r.amount ∧ r.amount ≤ gs.your_stack ∧ r.reasoning ≠ [] ∧
      (gs.effective_stack ≤ max (gs.pot_size * 1.5) gs.bet_to_call →
        (r.action = ActionType.ALL_IN ∧ r.amount = gs.effective_stack) ∨
        (r.action = ActionType.FOLD ∧ r.amount = 0) ∨
        (gs.bet_to_call = 0 ∧ r.action = ActionType.RAISE)) := by
  unfold recommend_preflop_cards
  dsimp only
  split
  next e heq =>
    by_cases h0 : 0 < gs.bet_to_call
    · rw [if_pos h0, calculate_pot_odds_eq gs hp hb] at heq; exact absurd heq (by simp)
    · rw [if_neg h0] at heq; exact absurd heq (by simp)
  next pot_odds heq =>
    split
    next hbet0 =>
      split
      next e heq2 =>
        obtain ⟨b, hso⟩ := should_open_ok c1 c2 gs.your_position
        rw [hso] at heq2
        exact absurd heq2 (by simp)
      next b heq2 =>
        split
        next hbtrue =>
          exact ⟨_, rfl, (suggest_open_raise_bounds gs hs).1,
            (suggest_open_raise_bounds gs hs).2, append_singleton_ne_nil _ _,
            fun _ => Or.inr (Or.inr ⟨hbet0, rfl⟩)⟩
        next hbfalse =>
          exact ⟨_, rfl, le_refl 0, hs, append_singleton_ne_nil _ _,
            fun _ => Or.inr (Or.inl ⟨rfl, rfl⟩)⟩
    next hbet0 =>
      split
      next hprem =>
        obtain ⟨hA, hB, hC, hD⟩ := short_stack_adjustment_spec gs .RAISE (suggest_3bet_size gs)
          _ hs ho (suggest_3bet_size_bounds gs hs).1 (append_singleton_ne_nil _ _)
        exact ⟨_, rfl, hA, hB, hC, fun hcond => Or.inl (hD hcond)⟩
      next hprem =>
        split
        next hstrong =>
          split
          next h1 =>
            obtain ⟨hA, hB, hC, hD⟩ := short_stack_adjustment_spec gs .RAISE
              (suggest_3bet_size gs) _ hs ho (suggest_3bet_size_bounds gs hs).1
              (append_singleton_ne_nil _ _)
            exact ⟨_, rfl, hA, hB, hC, fun hcond => Or.inl (hD hcond)⟩
          next h1 =>
            split
            next h2 =>
              obtain ⟨hA, hB, hC, hD⟩ := short_stack_adjustment_spec gs .CALL
                (min gs.bet_to_call gs.your_stack) _ hs ho (min_bet_stack_bounds gs hb hs).1
                (append_singleton_ne_nil _ _)
              exact ⟨_, rfl, hA, hB, hC, fun hcond => Or.inl (hD hcond)⟩
            next h2 =>
              obtain ⟨r, hr, hA, hB, hC, hD⟩ := preflop_speculative_shape gs _ _ _ hp hb hs ho
                (append_singleton_ne_nil _ _)
              exact ⟨r, hr, hA, hB, hC, fun hcond => (hD hcond).elim
                (fun x => Or.inl x) (fun x => Or.inr (Or.inl x))⟩
        next hstrong =>
          obtain ⟨r, hr, hA, hB, hC, hD⟩ := preflop_speculative_shape gs _ _ _ hp hb hs ho
            (append_singleton_ne_nil _ _)
          exact ⟨r, hr, hA, hB, hC, fun hcond => (hD hcond).elim
            (fun x => Or.inl x) (fun x => Or.inr (Or.inl x))⟩

/-- Every run of the postflop branch returns a bounded, explained result, and
under the short-stack condition the result is a forced all-in, a fold, or a
check (fold and check bypass the override). -/
theorem recommend_postflop_shape (sim : Except String ℚ) (gs : GameState)
    (hp : 0 ≤ gs.pot_size) (hb : 0 ≤ gs.bet_to_call) (hs : 0 ≤ gs.your_stack)
    (ho : ∀ s ∈ gs.opponent_stacks, 0 ≤ s) :
    ∃ r, recommend_postflop sim gs = .ok r ∧
      0 ≤ r.amount ∧ r.amount ≤ gs.your_stack ∧ r.reasoning ≠ [] ∧
      (gs.effective_stack ≤ max (gs.pot_size * 1.5) gs.bet_to_call →
        (r.action = ActionType.ALL_IN ∧ r.amount = gs.effective_stack) ∨
        (r.action = ActionType.FOLD ∧ r.amount = 0) ∨
        (r.action = ActionType.CHECK ∧ r.amount = 0)) := by
  unfold recommend_postflop
  dsimp only
  split
  next e heq =>
    by_cases h0 : 0 < gs.bet_to_call
    · rw [if_pos h0, calculate_pot_odds_eq gs hp hb] at heq; exact absurd heq (by simp)
    · rw [if_neg h0] at heq; exact absurd heq (by simp)
  next pot_odds heq =>
    split
    next hbet0 =>
      split
      next h1 =>
        obtain ⟨hA, hB, hC, hD⟩ := short_stack_adjustment_spec gs .BET (suggest_value_bet gs)
          _ hs ho (suggest_value_bet_bounds gs hp hs).1 (append_singleton_ne_nil _ _)
        exact ⟨_, rfl, hA, hB, hC, fun hcond => Or.inl (hD hcond)⟩
      next h1 =>
        split
        next h2 =>
          split
          next h3 =>
            obtain ⟨hA, hB, hC, hD⟩ := short_stack_adjustment_spec gs .BET
              (suggest_small_bet gs) _ hs ho (suggest_small_bet_bounds gs hs).1
              (append_singleton_ne_nil _ _)
            exact ⟨_, rfl, hA, hB, hC, fun hcond => Or.inl (hD hcond)⟩
          next h3 =>
            exact ⟨_, rfl, le_refl 0, hs, append_singleton_ne_nil _ _,
              fun _ => Or.inr (Or.inr ⟨rfl, rfl⟩)⟩
        next h2 =>
          exact ⟨_, rfl, le_refl 0, hs, append_singleton_ne_nil _ _,
            fun _ => Or.inr (Or.inr ⟨rfl, rfl⟩)⟩
    next hbet0 =>
      split
      next h1 =>
        split
        next h2 =>
          obtain ⟨hA, hB, hC, hD⟩ := short_stack_adjustment_spec gs .RAISE
            (suggest_raise_size gs) _ hs ho (suggest_raise_size_bounds gs hp hb hs).1
            (append_singleton_ne_nil _ _)
          exact ⟨_, rfl, hA, hB, hC, fun hcond => Or.inl (hD hcond)⟩
        next h2 =>
          obtain ⟨hA, hB, hC, hD⟩ := short_stack_adjustment_spec gs .CALL
            (min gs.bet_to_call gs.your_stack) _ hs ho (min_bet_stack_bounds gs hb hs).1
            (append_singleton_ne_nil _ _)
          exact ⟨_, rfl, hA, hB, hC, fun hcond => Or.inl (hD hcond)⟩
      next h1 =>
        exact ⟨_, rfl, le_refl 0, hs, append_singleton_ne_nil _ _,
          fun _ => Or.inr (Or.inl ⟨rfl, rfl⟩)⟩

theorem short_stack_adjustment_of_deep (gs : GameState) (a : ActionType) (amount : ℚ)
    (rs : List String)
    (hcond : ¬ gs.effective_stack ≤ max (gs.pot_size * 1.5) gs.bet_to_call) :
    short_stack_adjustment gs a amount rs = ⟨a, min amount gs.your_stack, rs⟩ := by
  unfold short_stack_adjustment
  rw [if_neg hcond]

theorem recommend_action_of_preflop (sim : Except String ℚ) (gs : GameState)
    (h2 : gs.hole_cards.length = 2) (hst : gs.street = Street.PREFLOP)
    (r : DecisionResult) (hr : recommend_preflop sim gs = .ok r) :
    recommend_action sim gs = .ok (r.action, r.amount, r.reasoning) := by
  unfold recommend_action
  rw [if_neg (by simp [h2]), if_pos hst, hr]

theorem recommend_action_of_postflop (sim : Except String ℚ) (gs : GameState)
    (h2 : gs.hole_cards.length = 2) (hst : gs.street ≠ Street.PREFLOP)
    (r : DecisionResult) (hr : recommend_postflop sim gs = .ok r) :
    recommend_action sim gs = .ok (r.action, r.amount, r.reasoning) := by
  unfold recommend_action
  rw [if_neg (by simp [h2]), if_neg hst, hr]

/-- Exact outcome of the postflop branch when facing a bet: the three-way
threshold comparison of the estimated equity against
`required_equity = pot_odds * 1.15 + multiway_adjustment` and the raise bar
`0.70 + multiway_adjustment`. -/
theorem recommend_postflop_bet_cases (sim : Except String ℚ) (gs : GameState)
    (hp : 0 ≤ gs.pot_size) (hb : 0 ≤ gs.bet_to_call) (hbet : 0 < gs.bet_to_call) :
    (gs.pot_odds * 1.15 + multiway_adjustment gs.active_opponents ≤ estimate_equity sim →
      0.70 + multiway_adjustment gs.active_opponents ≤ estimate_equity sim →
      ∃ rs, recommend_postflop sim gs =
        .ok (short_stack_adjustment gs .RAISE (suggest_raise_size gs) rs)) ∧
    (gs.pot_odds * 1.15 + multiway_adjustment gs.active_opponents ≤ estimate_equity sim →
      estimate_equity sim < 0.70 + multiway_adjustment gs.active_opponents →
      ∃ rs, recommend_postflop sim gs =
        .ok (short_stack_adjustment gs .CALL (min gs.bet_to_call gs.your_stack) rs)) ∧
    (estimate_equity sim < gs.pot_odds * 1.15 + multiway_adjustment gs.active_opponents →
      ∃ rs, recommend_postflop sim gs = .ok ⟨.FOLD, 0, rs⟩) := by
  unfold recommend_postflop
  dsimp only
  rw [if_pos hbet, calculate_pot_odds_eq gs hp hb]
  dsimp only
  rw [if_neg (ne_of_gt hbet)]
  refine ⟨fun h1 h2 => ?_, fun h1 h2 => ?_, fun h1 => ?_⟩
  · rw [if_pos h1, if_pos h2]; exact ⟨_, rfl⟩
  · rw [if_pos h1, if_neg (not_le.mpr h2)]; exact ⟨_, rfl⟩
  · rw [if_neg (not_le.mpr h1)]; exact ⟨_, rfl⟩

theorem deal_opponents_ok (eval : List Card → List Card → ℤ) (sim_board : List Card)
    (n : ℕ) (deck : List Card) (h : 2 * n ≤ deck.length) :
    ∃ rs, deal_opponents eval sim_board n deck = .ok rs ∧ rs.length = n := by
  induction n generalizing deck with
  | zero => exact ⟨[], rfl, rfl⟩
  | succ m ih =>
    have hlen : ¬ deck.length < 2 := by omega
    have hdrop : 2 * m ≤ (deck.drop 2).length := by
      rw [List.length_drop]; omega
    obtain ⟨rs, hrs, hlenrs⟩ := ih (deck.drop 2) hdrop
    refine ⟨eval (deck.take 2) sim_board :: rs, ?_, by simp [hlenrs]⟩
    unfold deal_opponents
    rw [if_neg hlen, hrs]

theorem run_trial_ok (eval : List Card → List Card → ℤ) (hero_cards board : List Card)
    (n : ℕ) (shuffled : List Card) (hn : 1 ≤ n)
    (hlen : (5 - board.length) + 2 * n ≤ shuffled.length) :
    ∃ r, run_trial eval hero_cards board n shuffled = .ok r := by
  unfold run_trial
  dsimp only
  have hdeck : 2 * n ≤ (shuffled.drop (5 - board.length)).length := by
    rw [List.length_drop]; omega
  obtain ⟨rs, hrs, hlenrs⟩ :=
    deal_opponents_ok eval (board ++ shuffled.take (5 - board.length)) n
      (shuffled.drop (5 - board.length)) hdeck
  rw [hrs]
  match rs, hlenrs with
  | r :: rest, _ =>
    dsimp only
    split
    · exact ⟨_, rfl⟩
    · split
      · exact ⟨_, rfl⟩
      · exact ⟨_, rfl⟩
  | [], habs => simp only [List.length_nil] at habs; omega

theorem tally_trials_ok (step : ℕ → Except String TrialResult) (l : List ℕ)
    (h : ∀ i ∈ l, ∃ r, step i = .ok r) :
    tally_trials step l =
      .ok (l.countP (fun i => step i = .ok .win), l.countP (fun i => step i = .ok .tie)) := by
  induction l with
  | nil => rfl
  | cons i rest ih =>
    obtain ⟨r, hr⟩ := h i (List.mem_cons_self i rest)
    have hrest := ih fun j hj => h j (List.mem_cons_of_mem i hj)
    unfold tally_trials
    rw [hr, hrest]
    cases r <;> simp [List.countP_cons, hr]

theorem counts_partition (step : ℕ → Except String TrialResult) (l : List ℕ)
    (h : ∀ i ∈ l, ∃ r, step i = .ok r) :
    l.countP (fun i => step i = .ok .win) + l.countP (fun i => step i = .ok .tie) +
      l.countP (fun i => step i = .ok .loss) = l.length := by
  induction l with
  | nil => rfl
  | cons i rest ih =>
    obtain ⟨r, hr⟩ := h i (List.mem_cons_self i rest)
    have ihr := ih fun j hj => h j (List.mem_cons_of_mem i hj)
    cases r <;> simp [List.countP_cons, hr] <;> omega

theorem two_of_length (l : List Card) (h : l.length = 2) : ∃ c1 c2, l = [c1, c2] := by
  match l, h with
  | [c1, c2], _ => exact ⟨c1, c2, rfl⟩
  | [], h => simp at h
  | [c], h => simp at h
  | c1 :: c2 :: c3 :: t, h => simp only [List.length_cons] at h; omega

/-! ### Claims -/

/-- C5: on every valid hand context (non-negative pot and bet), both
`GameState.pot_odds` and `OddsCalculator.calculate_pot_odds` equal
`bet_to_call / (pot_size + bet_to_call)` when a bet is owed and `0` when it
is zero, hence the two implementations agree on every valid `GameState`. -/
theorem C5_pot_odds_agree (gs : GameState) (hp : 0 ≤ gs.pot_size)
    (hb : 0 ≤ gs.bet_to_call) :
    (0 < gs.bet_to_call →
      gs.pot_odds = gs.bet_to_call / (gs.pot_size + gs.bet_to_call) ∧
      calculate_pot_odds gs = .ok (gs.bet_to_call / (gs.pot_size + gs.bet_to_call))) ∧
    (gs.bet_to_call = 0 → gs.pot_odds = 0 ∧ calculate_pot_odds gs = .ok 0) ∧
    calculate_pot_odds gs = .ok gs.pot_odds := by
  refine ⟨fun hpos => ⟨pot_odds_of_pos gs hp hpos, ?_⟩,
    fun h0 => ⟨pot_odds_of_zero gs h0, ?_⟩, calculate_pot_odds_eq gs hp hb⟩
  · rw [calculate_pot_odds_eq gs hp hb, pot_odds_of_pos gs hp hpos]
  · rw [calculate_pot_odds_eq gs hp hb, pot_odds_of_zero gs h0]

/-- C5 witness: pot 100 and bet 50 give pot odds 50/150 = 1/3 in both
implementations. -/
theorem C5_pot_odds_agree_witness :
    gsC5w.pot_odds = 1/3 ∧ calculate_pot_odds gsC5w = .ok (1/3) := by
  obtain ⟨h1, h2⟩ := (C5_pot_odds_agree gsC5w (by decide) (by decide)).1 (by decide)
  refine ⟨?_, ?_⟩
  · rw [h1]; norm_num [gsC5w, gsC3w]
  · rw [h2]; norm_num [gsC5w, gsC3w]

/-- C9: the combo label "AA" is a member of the opening range of every one of
the six positions, and "72o" is a member of none of them. -/
theorem C9_range_membership (p : Position) :
    "AA" ∈ OPENING_RANGES p ∧ "72o" ∉ OPENING_RANGES p := by
  cases p <;> exact ⟨by decide, by decide⟩

set_option maxHeartbeats 1000000 in
/-- C6: hand normalization is order-independent and canonical: for distinct
cards, swapping the arguments gives the same combo label; equal ranks give
the bare pair label; otherwise the higher rank is written first with suffix
"s" when the suits match and "o" when they differ. -/
theorem C6_normalize_hand_canonical (c1 c2 : Card) (hne : c1 ≠ c2) :
    normalize_hand c1 c2 = normalize_hand c2 c1 ∧
    (c1.rank = c2.rank →
      normalize_hand c1 c2 = c1.rank.short_name ++ c2.rank.short_name) ∧
    (c2.rank.val < c1.rank.val →
      normalize_hand c1 c2 =
        c1.rank.short_name ++ c2.rank.short_name ++
          (if c1.suit = c2.suit then "s" else "o")) := by
  revert hne
  revert c1 c2
  decide

/-- C6 witness: `normalize(A♠,K♠) = normalize(K♠,A♠) = "AKs"`,
`normalize(7♥,7♦) = "77"`, `normalize(K♠,A♦) = "AKo"`. -/
theorem C6_normalize_hand_canonical_witness :
    normalize_hand ⟨.ACE, .SPADES⟩ ⟨.KING, .SPADES⟩ =
      normalize_hand ⟨.KING, .SPADES⟩ ⟨.ACE, .SPADES⟩ ∧
    normalize_hand ⟨.ACE, .SPADES⟩ ⟨.KING, .SPADES⟩ = "AKs" ∧
    normalize_hand ⟨.SEVEN, .HEARTS⟩ ⟨.SEVEN, .DIAMONDS⟩ = "77" ∧
    normalize_hand ⟨.KING, .SPADES⟩ ⟨.ACE, .DIAMONDS⟩ = "AKo" :=
  ⟨(C6_normalize_hand_canonical ⟨.ACE, .SPADES⟩ ⟨.KING, .SPADES⟩ (by decide)).1,
    by decide, by decide, by decide⟩

/-- C1 (amended): on every valid state with two hole cards whose effective
stack is at or below `max(1.5 × pot, bet_to_call)`, the recommendation is
either the forced all-in for the full effective stack (every branch that is
routed through the short-stack adjustment), or one of the outcomes that
bypass the override: a fold or check for 0, or the preflop open-raise of the
unopened-pot branch. -/
theorem C1_short_stack_amended (sim : Except String ℚ) (gs : GameState)
    (hv : gs.Valid) (h2 : gs.hole_cards.length = 2)
    (hshort : gs.effective_stack ≤ max (gs.pot_size * 1.5) gs.bet_to_call) :
    ∃ a amt rs, recommend_action sim gs = .ok (a, amt, rs) ∧
      ((a = ActionType.ALL_IN ∧ amt = gs.effective_stack) ∨
       (a = ActionType.FOLD ∧ amt = 0) ∨
       (a = ActionType.CHECK ∧ amt = 0) ∨
       (gs.street = Street.PREFLOP ∧ gs.bet_to_call = 0 ∧ a = ActionType.RAISE)) := by
  obtain ⟨_, _, _, hp, hb, hs, ho, _, _, _⟩ := hv
  by_cases hst : gs.street = Street.PREFLOP
  · obtain ⟨c1, c2, hc⟩ := two_of_length gs.hole_cards h2
    obtain ⟨r, hr, _, _, _, hD⟩ := recommend_preflop_cards_shape sim gs c1 c2 hp hb hs ho
    refine ⟨r.action, r.amount, r.reasoning,
      recommend_action_of_preflop sim gs h2 hst r
        (by rw [recommend_preflop_eq sim gs c1 c2 hc]; exact hr), ?_⟩
    rcases hD hshort with hx | hx | hx
    · exact Or.inl hx
    · exact Or.inr (Or.inl hx)
    · exact Or.inr (Or.inr (Or.inr ⟨hst, hx.1, hx.2⟩))
  · obtain ⟨r, hr, _, _, _, hD⟩ := recommend_postflop_shape sim gs hp hb hs ho
    refine ⟨r.action, r.amount, r.reasoning,
      recommend_action_of_postflop sim gs h2 hst r hr, ?_⟩
    rcases hD hshort with hx | hx | hx
    · exact Or.inl hx
    · exact Or.inr (Or.inl hx)
    · exact Or.inr (Or.inr (Or.inl hx))

/-- C1 witness: the short-stack scenario of the spec (stack 40, pot 100, bet 20)
on the flop, where the call branch is overridden into an all-in of 40. -/
theorem C1_short_stack_amended_witness :
    ∃ a amt rs, recommend_action (.ok (1/2)) gsC1w = .ok (a, amt, rs) ∧
      ((a = ActionType.ALL_IN ∧ amt = gsC1w.effective_stack) ∨
       (a = ActionType.FOLD ∧ amt = 0) ∨
       (a = ActionType.CHECK ∧ amt = 0) ∨
       (gsC1w.street = Street.PREFLOP ∧ gsC1w.bet_to_call = 0 ∧ a = ActionType.RAISE)) :=
  C1_short_stack_amended (.ok (1/2)) gsC1w (by decide) (by decide)
    (by
      have he : gsC1w.effective_stack = 40 := by
        simp [GameState.effective_stack, gsC1w]
      rw [he]
      exact le_trans (by norm_num [gsC1w]) (le_max_left (gsC1w.pot_size * 1.5) _))

/-- C1 counterexample: a valid short-stacked state (effective stack 40,
`max(1.5 × pot, bet) = 150`) routed through the preflop open-raise branch,
which returns a raise — not the all-in the claim demands for every branch. -/
theorem C1_counterexample :
    gsC1x.Valid ∧ gsC1x.hole_cards.length = 2 ∧
    gsC1x.effective_stack ≤ max (gsC1x.pot_size * 1.5) gsC1x.bet_to_call ∧
    result_action (recommend_action (.ok 0) gsC1x) = some ActionType.RAISE ∧
    ¬ result_action (recommend_action (.ok 0) gsC1x) = some ActionType.ALL_IN := by
  refine ⟨by decide, by decide, ?_, by decide, by decide⟩
  have he : gsC1x.effective_stack = 40 := by
    simp [GameState.effective_stack, gsC1x]
  rw [he]
  exact le_trans (by norm_num [gsC1x]) (le_max_left (gsC1x.pot_size * 1.5) _)

/-- C3 (amended): postflop facing a bet with a deep effective stack (so the
short-stack override does not rewrite the action), the engine compares the
estimated equity with `required_equity = pot_odds × 1.15 + multiway` and the
raise bar `0.70 + multiway`: it raises only when equity clears both, calls
when it clears `required_equity` but not the raise bar, and folds (amount 0)
when it is below `required_equity` — even if equity clears `0.70 + multiway`. -/
theorem C3_postflop_thresholds_amended (sim : Except String ℚ) (gs : GameState)
    (hv : gs.Valid) (h2 : gs.hole_cards.length = 2)
    (hst : gs.street ≠ Street.PREFLOP) (hbet : 0 < gs.bet_to_call)
    (hdeep : ¬ gs.effective_stack ≤ max (gs.pot_size * 1.5) gs.bet_to_call) :
    ((gs.bet_to_call / (gs.pot_size + gs.bet_to_call)) * 1.15 +
        multiway_adjustment gs.active_opponents ≤ estimate_equity sim →
      0.70 + multiway_adjustment gs.active_opponents ≤ estimate_equity sim →
      result_action (recommend_action sim gs) = some ActionType.RAISE) ∧
    ((gs.bet_to_call / (gs.pot_size + gs.bet_to_call)) * 1.15 +
        multiway_adjustment gs.active_opponents ≤ estimate_equity sim →
      estimate_equity sim < 0.70 + multiway_adjustment gs.active_opponents →
      result_action (recommend_action sim gs) = some ActionType.CALL) ∧
    (estimate_equity sim < (gs.bet_to_call / (gs.pot_size + gs.bet_to_call)) * 1.15 +
        multiway_adjustment gs.active_opponents →
      result_action (recommend_action sim gs) = some ActionType.FOLD ∧
      result_amount (recommend_action sim gs) = some 0) := by
  obtain ⟨_, _, _, hp, hb, hs, ho, _, _, _⟩ := hv
  have hpo : gs.pot_odds = gs.bet_to_call / (gs.pot_size + gs.bet_to_call) :=
    pot_odds_of_pos gs hp hbet
  obtain ⟨hR, hC, hF⟩ := recommend_postflop_bet_cases sim gs hp hb hbet
  refine ⟨fun h1 hbar => ?_, fun h1 hbar => ?_, fun h1 => ?_⟩
  · obtain ⟨rs, hr⟩ := hR (by rw [hpo]; exact h1) hbar
    rw [short_stack_adjustment_of_deep gs _ _ _ hdeep] at hr
    rw [recommend_action_of_postflop sim gs h2 hst _ hr]
    rfl
  · obtain ⟨rs, hr⟩ := hC (by rw [hpo]; exact h1) hbar
    rw [short_stack_adjustment_of_deep gs _ _ _ hdeep] at hr
    rw [recommend_action_of_postflop sim gs h2 hst _ hr]
    rfl
  · obtain ⟨rs, hr⟩ := hF (by rw [hpo]; exact h1)
    rw [recommend_action_of_postflop sim gs h2 hst _ hr]
    exact ⟨rfl, rfl⟩

/-- C3 witness: deep-stacked flop, pot 100, bet 50, equity 9/10: required
equity is 23/60 and the raise bar 0.70, both cleared, so the engine raises. -/
theorem C3_postflop_thresholds_amended_witness :
    result_action (recommend_action (.ok (9/10)) gsC3w) = some ActionType.RAISE :=
  (C3_postflop_thresholds_amended (.ok (9/10)) gsC3w (by decide) (by decide)
    (by decide) (by decide)
    (by
      have he : gsC3w.effective_stack = 1000 := by
        simp [GameState.effective_stack, gsC3w]
      rw [he, max_eq_left (show gsC3w.bet_to_call ≤ gsC3w.pot_size * 1.5 by
        norm_num [gsC3w])]
      norm_num [gsC3w])).1
    (by norm_num [gsC3w, multiway_adjustment, estimate_equity])
    (by norm_num [gsC3w, multiway_adjustment, estimate_equity])

/-- C3 counterexample: valid deep-stacked flop facing an overbet (pot 10,
bet 50) with equity 4/5: the equity clears the claimed raise threshold
`0.70 + multiway`, yet the code folds because `required_equity = 23/24`
exceeds the raise bar and the equity. -/
theorem C3_counterexample :
    gsC3x.Valid ∧ gsC3x.street ≠ Street.PREFLOP ∧ 0 < gsC3x.bet_to_call ∧
    0.70 + multiway_adjustment gsC3x.active_opponents ≤ estimate_equity (.ok (4/5)) ∧
    result_action (recommend_action (.ok (4/5)) gsC3x) = some ActionType.FOLD ∧
    ¬ result_action (recommend_action (.ok (4/5)) gsC3x) = some ActionType.RAISE := by
  have hpo : gsC3x.pot_odds = 5/6 := by
    rw [pot_odds_of_pos gsC3x (by decide) (by decide)]
    norm_num [gsC3x]
  obtain ⟨-, -, hF⟩ :=
    recommend_postflop_bet_cases (.ok (4/5)) gsC3x (by decide) (by decide) (by decide)
  obtain ⟨rs, hr⟩ := hF (by
    rw [hpo]
    norm_num [multiway_adjustment, estimate_equity, gsC3x])
  have hra := recommend_action_of_postflop (.ok (4/5)) gsC3x (by decide) (by decide) _ hr
  refine ⟨by decide, by decide, by decide, ?_, ?_, ?_⟩
  · norm_num [multiway_adjustment, estimate_equity, gsC3x]
  · rw [hra]; rfl
  · rw [hra]; simp [result_action]

/-- C4: a request whose hole-card list does not hold exactly two cards fails
the whole recommendation call with the validation error; a simulator failure
is caught inside `_estimate_equity`, replaced by the neutral equity 0.0, and
the recommendation still returns normally on every valid two-card state. -/
theorem C4_fatal_vs_recoverable :
    (∀ (sim : Except String ℚ) (gs : GameState), gs.hole_cards.length ≠ 2 →
      recommend_action sim gs =
        .error "É necessário informar exatamente duas cartas na mão.") ∧
    (∀ e : String, estimate_equity (.error e) = 0) ∧
    (∀ (e : String) (gs : GameState), gs.Valid → gs.hole_cards.length = 2 →
      ∃ out, recommend_action (.error e) gs = .ok out) := by
  refine ⟨fun sim gs h => ?_, fun e => rfl, fun e gs hv h2 => ?_⟩
  · unfold recommend_action
    rw [if_pos h]
  · obtain ⟨_, _, _, hp, hb, hs, ho, _, _, _⟩ := hv
    by_cases hst : gs.street = Street.PREFLOP
    · obtain ⟨c1, c2, hc⟩ := two_of_length gs.hole_cards h2
      obtain ⟨r, hr, _⟩ := recommend_preflop_cards_shape (.error e) gs c1 c2 hp hb hs ho
      exact ⟨_, recommend_action_of_preflop (.error e) gs h2 hst r
        (by rw [recommend_preflop_eq (.error e) gs c1 c2 hc]; exact hr)⟩
    · obtain ⟨r, hr, _⟩ := recommend_postflop_shape (.error e) gs hp hb hs ho
      exact ⟨_, recommend_action_of_postflop (.error e) gs h2 hst r hr⟩

/-- C4 witness: a one-card request fails with the validation error, while a
valid two-card request still succeeds when the simulator raises. -/
theorem C4_fatal_vs_recoverable_witness :
    recommend_action (.ok 0) gsC4bad =
      .error "É necessário informar exatamente duas cartas na mão." ∧
    estimate_equity (.error "Not enough cards remaining to complete the simulation.") = 0 ∧
    ∃ out, recommend_action
      (.error "Not enough cards remaining to complete the simulation.") gsC4ok = .ok out := by
  obtain ⟨hA, hB, hC⟩ := C4_fatal_vs_recoverable
  exact ⟨hA (.ok 0) gsC4bad (by decide),
    hB "Not enough cards remaining to complete the simulation.",
    hC "Not enough cards remaining to complete the simulation." gsC4ok (by decide) (by decide)⟩

/-- C8: on every valid state with exactly two hole cards, the recommendation
returns a recognized action, an amount between 0 and the remaining hero stack
(the all-in override pays the effective stack, which never exceeds the hero
stack), and a non-empty reasoning trail. -/
theorem C8_output_contract (sim : Except String ℚ) (gs : GameState) (hv : gs.Valid)
    (h2 : gs.hole_cards.length = 2) :
    ∃ a amt rs, recommend_action sim gs = .ok (a, amt, rs) ∧
      a ∈ [ActionType.FOLD, ActionType.CHECK, ActionType.CALL, ActionType.BET,
        ActionType.RAISE, ActionType.ALL_IN] ∧
      0 ≤ amt ∧ amt ≤ gs.your_stack ∧ rs ≠ [] := by
  obtain ⟨_, _, _, hp, hb, hs, ho, _, _, _⟩ := hv
  have hmem : ∀ a : ActionType, a ∈ [ActionType.FOLD, ActionType.CHECK, ActionType.CALL,
      ActionType.BET, ActionType.RAISE, ActionType.ALL_IN] := fun a => by cases a <;> simp
  by_cases hst : gs.street = Street.PREFLOP
  · obtain ⟨c1, c2, hc⟩ := two_of_length gs.hole_cards h2
    obtain ⟨r, hr, hA, hB, hC, _⟩ := recommend_preflop_cards_shape sim gs c1 c2 hp hb hs ho
    exact ⟨r.action, r.amount, r.reasoning,
      recommend_action_of_preflop sim gs h2 hst r
        (by rw [recommend_preflop_eq sim gs c1 c2 hc]; exact hr),
      hmem r.action, hA, hB, hC⟩
  · obtain ⟨r, hr, hA, hB, hC, _⟩ := recommend_postflop_shape sim gs hp hb hs ho
    exact ⟨r.action, r.amount, r.reasoning,
      recommend_action_of_postflop sim gs h2 hst r hr, hmem r.action, hA, hB, hC⟩

/-- C8 witness: the output contract at a concrete valid flop state. -/
theorem C8_output_contract_witness :
    ∃ a amt rs, recommend_action (.ok (1/2)) gsC8w = .ok (a, amt, rs) ∧
      a ∈ [ActionType.FOLD, ActionType.CHECK, ActionType.CALL, ActionType.BET,
        ActionType.RAISE, ActionType.ALL_IN] ∧
      0 ≤ amt ∧ amt ≤ gsC8w.your_stack ∧ rs ≠ [] :=
  C8_output_contract (.ok (1/2)) gsC8w (by decide) (by decide)

/-- C10: on every valid postflop state facing a bet, a simulator failure is
converted into the neutral equity 0, which can never clear the strictly
positive `required_equity = pot_odds × 1.15 + multiway`, so the engine
silently returns a fold recommendation for 0 instead of surfacing the error. -/
theorem C10_sim_error_folds (gs : GameState) (e : String) (hv : gs.Valid)
    (h2 : gs.hole_cards.length = 2) (hst : gs.street ≠ Street.PREFLOP)
    (hbet : 0 < gs.bet_to_call) :
    ∃ rs, recommend_action (.error e) gs = .ok (ActionType.FOLD, 0, rs) := by
  obtain ⟨_, _, _, hp, hb, hs, ho, _, _, _⟩ := hv
  obtain ⟨_, _, hF⟩ := recommend_postflop_bet_cases (.error e) gs hp hb hbet
  have hreq : 0 < gs.pot_odds * 1.15 + multiway_adjustment gs.active_opponents := by
    have hA := pot_odds_pos gs hp hbet
    have hB := multiway_adjustment_nonneg gs.active_opponents
    nlinarith
  obtain ⟨rs, hr⟩ := hF hreq
  exact ⟨rs, recommend_action_of_postflop (.error e) gs h2 hst _ hr⟩

/-- C10 witness: a raised simulator error on a concrete flop state facing a
bet yields a fold for 0. -/
theorem C10_sim_error_folds_witness :
    ∃ rs, recommend_action
        (.error "Not enough cards remaining to complete the simulation.") gsC10w =
      .ok (ActionType.FOLD, 0, rs) :=
  C10_sim_error_folds gsC10w "Not enough cards remaining to complete the simulation."
    (by decide) (by decide) (by decide) (by decide)

/-- C2: for every valid simulator input (exactly two hero cards, at most five
board cards, all mutually distinct, at least one opponent, deck large enough)
and every rank oracle and length-preserving per-trial shuffle,
`simulate_equity` returns exactly `(wins + 0.5 * ties) / num_simulations`
where `wins` and `ties` are the per-trial tallies, this value lies in the
closed interval [0, 1], and `wins + ties + losses = num_simulations` (the
three ℕ-valued counters are non-negative by type). -/
theorem C2_simulate_equity_tallies (eval : List Card → List Card → ℤ)
    (shuffle : ℕ → List Card → List Card) (num_simulations : ℕ)
    (hero_cards board : List Card) (num_opponents : ℤ)
    (hN : 0 < num_simulations)
    (hshuffle : ∀ i d, (shuffle i d).length = d.length)
    (h2 : hero_cards.length = 2) (hb : board.length ≤ 5) (hopp : 1 ≤ num_opponents)
    (hnodup : ((hero_cards ++ board).map Card.str).Nodup)
    (hdeck : max 0 (5 - (board.length : ℤ)) + num_opponents * 2 ≤
      ((deck_minus (hero_cards ++ board)).length : ℤ)) :
    simulate_equity eval shuffle num_simulations hero_cards board num_opponents =
      .ok (((sim_wins eval shuffle num_simulations hero_cards board num_opponents : ℚ) +
          0.5 * (sim_ties eval shuffle num_simulations hero_cards board num_opponents : ℚ)) /
        (num_simulations : ℚ)) ∧
    0 ≤ ((sim_wins eval shuffle num_simulations hero_cards board num_opponents : ℚ) +
          0.5 * (sim_ties eval shuffle num_simulations hero_cards board num_opponents : ℚ)) /
        (num_simulations : ℚ) ∧
    ((sim_wins eval shuffle num_simulations hero_cards board num_opponents : ℚ) +
          0.5 * (sim_ties eval shuffle num_simulations hero_cards board num_opponents : ℚ)) /
        (num_simulations : ℚ) ≤ 1 ∧
    sim_wins eval shuffle num_simulations hero_cards board num_opponents +
        sim_ties eval shuffle num_simulations hero_cards board num_opponents +
        sim_losses eval shuffle num_simulations hero_cards board num_opponents =
      num_simulations := by
  have hstep : ∀ i ∈ List.range num_simulations,
      ∃ r, trial_step eval shuffle hero_cards board num_opponents i = .ok r := by
    intro i _
    unfold trial_step
    refine run_trial_ok eval hero_cards board num_opponents.toNat
      (shuffle i (deck_minus (hero_cards ++ board))) (by omega) ?_
    rw [hshuffle]
    omega
  have htally := tally_trials_ok
    (fun i => run_trial eval hero_cards board num_opponents.toNat
      (shuffle i (deck_minus (hero_cards ++ board))))
    (List.range num_simulations) hstep
  have hpart := counts_partition
    (fun i => run_trial eval hero_cards board num_opponents.toNat
      (shuffle i (deck_minus (hero_cards ++ board))))
    (List.range num_simulations) hstep
  rw [List.length_range] at hpart
  have hWTL : sim_wins eval shuffle num_simulations hero_cards board num_opponents +
      sim_ties eval shuffle num_simulations hero_cards board num_opponents +
      sim_losses eval shuffle num_simulations hero_cards board num_opponents =
      num_simulations := by
    unfold sim_wins sim_ties sim_losses trial_step
    exact hpart
  have heval : simulate_equity eval shuffle num_simulations hero_cards board num_opponents =
      .ok (((sim_wins eval shuffle num_simulations hero_cards board num_opponents : ℚ) +
          0.5 * (sim_ties eval shuffle num_simulations hero_cards board num_opponents : ℚ)) /
        (num_simulations : ℚ)) := by
    unfold simulate_equity
    rw [if_neg (not_lt.mpr hb), if_neg (not_not_intro h2), if_neg (not_lt.mpr hb),
      if_neg (not_lt.mpr hopp), if_neg (not_not_intro hnodup),
      show create_deck (hero_cards ++ board) = .ok (deck_minus (hero_cards ++ board)) from by
        unfold create_deck; rw [if_pos hnodup]]
    dsimp only
    rw [if_neg (not_lt.mpr hdeck), htally]
    unfold sim_wins sim_ties trial_step
    rfl
  refine ⟨heval, ?_, ?_, hWTL⟩
  · apply div_nonneg _ (by positivity)
    positivity
  · rw [div_le_one (by exact_mod_cast hN)]
    have hle : sim_wins eval shuffle num_simulations hero_cards board num_opponents +
        sim_ties eval shuffle num_simulations hero_cards board num_opponents ≤
        num_simulations := by omega
    have hcast : ((sim_wins eval shuffle num_simulations hero_cards board num_opponents : ℚ) +
        (sim_ties eval shuffle num_simulations hero_cards board num_opponents : ℚ)) ≤
        (num_simulations : ℚ) := by exact_mod_cast hle
    have htnn : (0:ℚ) ≤
        (sim_ties eval shuffle num_simulations hero_cards board num_opponents : ℚ) := by
      positivity
    linarith

/-- C2 witness: one tie trial (constant oracle, identity shuffle, complete
board, one opponent) gives equity (0 + 0.5 × 1) / 1 with all the stated
properties. -/
theorem C2_simulate_equity_tallies_witness :
    simulate_equity (fun _ _ => 0) (fun _ d => d) 1
        [⟨.ACE, .SPADES⟩, ⟨.KING, .SPADES⟩]
        [⟨.TWO, .CLUBS⟩, ⟨.SEVEN, .DIAMONDS⟩, ⟨.NINE, .SPADES⟩, ⟨.TEN, .HEARTS⟩,
          ⟨.FOUR, .CLUBS⟩] 1 =
      .ok (((sim_wins (fun _ _ => 0) (fun _ d => d) 1
            [⟨.ACE, .SPADES⟩, ⟨.KING, .SPADES⟩]
            [⟨.TWO, .CLUBS⟩, ⟨.SEVEN, .DIAMONDS⟩, ⟨.NINE, .SPADES⟩, ⟨.TEN, .HEARTS⟩,
              ⟨.FOUR, .CLUBS⟩] 1 : ℚ) +
          0.5 * (sim_ties (fun _ _ => 0) (fun _ d => d) 1
            [⟨.ACE, .SPADES⟩, ⟨.KING, .SPADES⟩]
            [⟨.TWO, .CLUBS⟩, ⟨.SEVEN, .DIAMONDS⟩, ⟨.NINE, .SPADES⟩, ⟨.TEN, .HEARTS⟩,
              ⟨.FOUR, .CLUBS⟩] 1 : ℚ)) / ((1 : ℕ) : ℚ)) ∧
    0 ≤ ((sim_wins (fun _ _ => 0) (fun _ d => d) 1
            [⟨.ACE, .SPADES⟩, ⟨.KING, .SPADES⟩]
            [⟨.TWO, .CLUBS⟩, ⟨.SEVEN, .DIAMONDS⟩, ⟨.NINE, .SPADES⟩, ⟨.TEN, .HEARTS⟩,
              ⟨.FOUR, .CLUBS⟩] 1 : ℚ) +
          0.5 * (sim_ties (fun _ _ => 0) (fun _ d => d) 1
            [⟨.ACE, .SPADES⟩, ⟨.KING, .SPADES⟩]
            [⟨.TWO, .CLUBS⟩, ⟨.SEVEN, .DIAMONDS⟩, ⟨.NINE, .SPADES⟩, ⟨.TEN, .HEARTS⟩,
              ⟨.FOUR, .CLUBS⟩] 1 : ℚ)) / ((1 : ℕ) : ℚ) ∧
    ((sim_wins (fun _ _ => 0) (fun _ d => d) 1
            [⟨.ACE, .SPADES⟩, ⟨.KING, .SPADES⟩]
            [⟨.TWO, .CLUBS⟩, ⟨.SEVEN, .DIAMONDS⟩, ⟨.NINE, .SPADES⟩, ⟨.TEN, .HEARTS⟩,
              ⟨.FOUR, .CLUBS⟩] 1 : ℚ) +
          0.5 * (sim_ties (fun _ _ => 0) (fun _ d => d) 1
            [⟨.ACE, .SPADES⟩, ⟨.KING, .SPADES⟩]
            [⟨.TWO, .CLUBS⟩, ⟨.SEVEN, .DIAMONDS⟩, ⟨.NINE, .SPADES⟩, ⟨.TEN, .HEARTS⟩,
              ⟨.FOUR, .CLUBS⟩] 1 : ℚ)) / ((1 : ℕ) : ℚ) ≤ 1 ∧
    sim_wins (fun _ _ => 0) (fun _ d => d) 1 [⟨.ACE, .SPADES⟩, ⟨.KING, .SPADES⟩]
        [⟨.TWO, .CLUBS⟩, ⟨.SEVEN, .DIAMONDS⟩, ⟨.NINE, .SPADES⟩, ⟨.TEN, .HEARTS⟩,
          ⟨.FOUR, .CLUBS⟩] 1 +
      sim_ties (fun _ _ => 0) (fun _ d => d) 1 [⟨.ACE, .SPADES⟩, ⟨.KING, .SPADES⟩]
        [⟨.TWO, .CLUBS⟩, ⟨.SEVEN, .DIAMONDS⟩, ⟨.NINE, .SPADES⟩, ⟨.TEN, .HEARTS⟩,
          ⟨.FOUR, .CLUBS⟩] 1 +
      sim_losses (fun _ _ => 0) (fun _ d => d) 1 [⟨.ACE, .SPADES⟩, ⟨.KING, .SPADES⟩]
        [⟨.TWO, .CLUBS⟩, ⟨.SEVEN, .DIAMONDS⟩, ⟨.NINE, .SPADES⟩, ⟨.TEN, .HEARTS⟩,
          ⟨.FOUR, .CLUBS⟩] 1 = 1 :=
  C2_simulate_equity_tallies (fun _ _ => 0) (fun _ d => d) 1
    [⟨.ACE, .SPADES⟩, ⟨.KING, .SPADES⟩]
    [⟨.TWO, .CLUBS⟩, ⟨.SEVEN, .DIAMONDS⟩, ⟨.NINE, .SPADES⟩, ⟨.TEN, .HEARTS⟩,
      ⟨.FOUR, .CLUBS⟩] 1
    (by decide) (fun i d => rfl) (by decide) (by decide) (by decide) (by decide) (by decide)

/-- C7: `simulate_equity` rejects with an input-validation error (it does not
clamp or proceed) whenever the hero-card list is not exactly two cards, the
board exceeds five cards, there are fewer than one opponent, any card among
hero and board is duplicated, or the working deck (the 52 cards minus hero
and board) holds fewer than `(5 - board size) + 2 * num_opponents` cards. -/
theorem C7_simulate_equity_validation (eval : List Card → List Card → ℤ)
    (shuffle : ℕ → List Card → List Card) (num_simulations : ℕ)
    (hero_cards board : List Card) (num_opponents : ℤ)
    (h : hero_cards.length ≠ 2 ∨ 5 < board.length ∨ num_opponents < 1 ∨
      ¬ ((hero_cards ++ board).map Card.str).Nodup ∨
      ((deck_minus (hero_cards ++ board)).length : ℤ) <
        max 0 (5 - (board.length : ℤ)) + num_opponents * 2) :
    (simulate_equity eval shuffle num_simulations hero_cards board num_opponents).isOk
      = false := by
  unfold simulate_equity
  by_cases c1 : 5 < board.length
  · rw [if_pos c1]; rfl
  rw [if_neg c1]
  by_cases c2 : hero_cards.length ≠ 2
  · rw [if_pos c2]; rfl
  rw [if_neg c2, if_neg c1]
  by_cases c3 : num_opponents < 1
  · rw [if_pos c3]; rfl
  rw [if_neg c3]
  by_cases c4 : ¬ ((hero_cards ++ board).map Card.str).Nodup
  · rw [if_pos c4]; rfl
  rw [if_neg c4]
  have hnd : ((hero_cards ++ board).map Card.str).Nodup := not_not.mp c4
  rw [show create_deck (hero_cards ++ board) = .ok (deck_minus (hero_cards ++ board)) from by
    unfold create_deck; rw [if_pos hnd]]
  dsimp only
  by_cases c5 : ((deck_minus (hero_cards ++ board)).length : ℤ) <
      max 0 (5 - (board.length : ℤ)) + num_opponents * 2
  · rw [if_pos c5]; rfl
  rcases h with hx | hx | hx | hx | hx
  · exact absurd hx c2
  · exact absurd hx c1
  · exact absurd hx c3
  · exact absurd hnd hx
  · exact absurd hx c5

/-- C7 witness: a one-card hero hand is rejected. -/
theorem C7_simulate_equity_validation_witness :
    (simulate_equity (fun _ _ => 0) (fun _ d => d) 1 [⟨.ACE, .SPADES⟩] [] 1).isOk
      = false :=
  C7_simulate_equity_validation (fun _ _ => 0) (fun _ d => d) 1 [⟨.ACE, .SPADES⟩] [] 1
    (Or.inl (by decide))

end PokerCoach
